import Mathlib

/-!
A shallow embedding of the core of ACMProBot (src/main.py): the batch
builder, validators, config-store admin operations, the dispatcher
(execute_post / execute_scheduled_job) and the scheduled-job runner
(run_scheduled_jobs / cleanup_expired_jobs), together with theorems
settling the frozen claims about them.

Machine conventions used throughout:
* timestamps are modelled as natural numbers: seconds on the proleptic
  Gregorian timeline, day 0 being 0001-01-01 (Python ordinal 1), matching
  the arithmetic of naive `datetime` values;
* `datetime.now()` is a `now : Nat` parameter;
* the outcome of each network send is given by an oracle
  `Nat → Bool` consulted at a running send counter;
* Python dicts are insertion-ordered association lists.
-/

namespace ACMPro

/-! ### Constants (main.py:50-61) -/

def MAX_BATCH_MESSAGES : Nat := 100

def MAX_MESSAGE_LENGTH : Nat := 4096

def MAX_CAPTION_LENGTH : Nat := 1024

def TEXT_FILE_DELIMITER : String := "\n\n"

/-! ### Batch messages (main.py:863-949) -/

/-- A batch entry: the tagged dict built by `add_to_batch` has one of four
`type` values, each with a content or a file id plus caption. -/
inductive Msg where
  | text (content : String)
  | photo (file_id : String) (caption : String)
  | video (file_id : String) (caption : String)
  | document (file_id : String) (caption : String)
deriving DecidableEq, Repr

/-- Result of appending one message to the batch: either the batch-full
reply (main.py:856-861) or the success reply carrying the new size
(main.py:949-955). -/
inductive AddResult where
  | batchFull
  | added (newLen : Nat)
deriving DecidableEq, Repr

/-- `add_to_batch` for a single (non-text-file) incoming message
(main.py:840-955): reject when `len(batch) >= MAX_BATCH_MESSAGES`,
otherwise append and report the new length. -/
def add_to_batch (batch : List Msg) (m : Msg) : AddResult × List Msg :=
  if batch.length ≥ MAX_BATCH_MESSAGES then (AddResult.batchFull, batch)
  else (AddResult.added (batch.length + 1), batch ++ [m])

/-- `validate_message_content` (main.py:394-400): non-empty and at most
the max message (or caption) length.  Python `len` counts code points,
matching `String.length`. -/
def validate_message_content (content : String) (is_caption : Bool) : Bool :=
  content ≠ "" &&
    content.length ≤ (if is_caption then MAX_CAPTION_LENGTH else MAX_MESSAGE_LENGTH)

/-- The append loop of the text-file branch of `add_to_batch`
(main.py:907-918): stop at the cap, append each segment passing
`validate_message_content` as a text message, count the additions. -/
def ingestLoop : List String → List Msg → Nat → Nat × List Msg
  | [], batch, cnt => (cnt, batch)
  | seg :: rest, batch, cnt =>
    if batch.length ≥ MAX_BATCH_MESSAGES then (cnt, batch)
    else if validate_message_content seg false then
      ingestLoop rest (batch ++ [Msg.text seg]) (cnt + 1)
    else ingestLoop rest batch cnt

/-- `str.split("\n\n")`: left-to-right, non-overlapping occurrences of
the two-character delimiter `TEXT_FILE_DELIMITER`; the empty input yields
one empty segment, adjacent delimiters yield empty segments. -/
def splitOnBlank : List Char → List (List Char)
  | [] => [[]]
  | '\n' :: '\n' :: rest => [] :: splitOnBlank rest
  | c :: rest =>
    match splitOnBlank rest with
    | seg :: segs => (c :: seg) :: segs
    | [] => [[c]]

/-- The ASCII whitespace set of `str.strip()` (space, tab, newline,
carriage return, vertical tab, form feed; the unicode-only extras of
Python's `strip` are not modelled). -/
def isSpace (c : Char) : Bool :=
  c == ' ' || c == '\t' || c == '\n' || c == '\r' || c == '\x0b' || c == '\x0c'

/-- `str.strip()`: drop leading and trailing whitespace. -/
def pyStrip (cs : List Char) : List Char :=
  ((cs.dropWhile isSpace).reverse.dropWhile isSpace).reverse

/-- The text-file branch of `add_to_batch` (main.py:899-925): split the
decoded text on the blank-line delimiter, strip each segment, drop empty
segments (`[msg.strip() for msg in messages if msg.strip()]`), then
append the valid ones up to the cap.  Returns the reported `added_count`
and the new batch. -/
def addFromTextBlob (batch : List Msg) (text : String) : Nat × List Msg :=
  let segments :=
    ((splitOnBlank text.data).map (fun cs => String.mk (pyStrip cs))).filter
      (fun s => s ≠ "")
  ingestLoop segments batch 0

/-! ### Channel-id validation (main.py:341-350) -/

/-- The username alternative `@[a-zA-Z][a-zA-Z0-9_]\x7b4,31\x7d` of
`validate_channel_id`, applied to an exact character list (no `$`
newline allowance).  `Char.isAlpha`, `Char.isDigit` are the ASCII classes
of the regex; Python's `\d` also admits non-ASCII decimal digits, which
is not modelled. -/
def matchesUsernameCore : List Char → Bool
  | c0 :: c1 :: rest =>
    c0 == '@' && c1.isAlpha && decide (4 ≤ rest.length) && decide (rest.length ≤ 31)
      && rest.all (fun ch => ch.isAlphanum || ch == '_')
  | _ => false

/-- The code-point ranges of Unicode general category Nd (decimal
digits), Unicode 15.0 as shipped with current CPython: without the
`re.ASCII` flag, `\d` in a compiled pattern matches exactly these
characters. -/
def ndRanges : List (Nat × Nat) :=
  [(0x30, 0x39), (0x660, 0x669), (0x6F0, 0x6F9), (0x7C0, 0x7C9),
   (0x966, 0x96F), (0x9E6, 0x9EF), (0xA66, 0xA6F), (0xAE6, 0xAEF),
   (0xB66, 0xB6F), (0xBE6, 0xBEF), (0xC66, 0xC6F), (0xCE6, 0xCEF),
   (0xD66, 0xD6F), (0xDE6, 0xDEF), (0xE50, 0xE59), (0xED0, 0xED9),
   (0xF20, 0xF29), (0x1040, 0x1049), (0x1090, 0x1099), (0x17E0, 0x17E9),
   (0x1810, 0x1819), (0x1946, 0x194F), (0x19D0, 0x19D9), (0x1A80, 0x1A89),
   (0x1A90, 0x1A99), (0x1B50, 0x1B59), (0x1BB0, 0x1BB9), (0x1C40, 0x1C49),
   (0x1C50, 0x1C59), (0xA620, 0xA629), (0xA8D0, 0xA8D9), (0xA900, 0xA909),
   (0xA9D0, 0xA9D9), (0xA9F0, 0xA9F9), (0xAA50, 0xAA59), (0xABF0, 0xABF9),
   (0xFF10, 0xFF19), (0x104A0, 0x104A9), (0x10D30, 0x10D39),
   (0x11066, 0x1106F), (0x110F0, 0x110F9), (0x11136, 0x1113F),
   (0x111D0, 0x111D9), (0x112F0, 0x112F9), (0x11450, 0x11459),
   (0x114D0, 0x114D9), (0x11650, 0x11659), (0x116C0, 0x116C9),
   (0x11730, 0x11739), (0x118E0, 0x118E9), (0x11950, 0x11959),
   (0x11C50, 0x11C59), (0x11D50, 0x11D59), (0x11DA0, 0x11DA9),
   (0x11F50, 0x11F59), (0x16A60, 0x16A69), (0x16AC0, 0x16AC9),
   (0x16B50, 0x16B59), (0x1D7CE, 0x1D7FF), (0x1E140, 0x1E149),
   (0x1E2F0, 0x1E2F9), (0x1E4F0, 0x1E4F9), (0x1E950, 0x1E959),
   (0x1FBF0, 0x1FBF9)]

/-- Python's `\d` with the default (Unicode) matching: any character of
category Nd. -/
def isDigitNd (c : Char) : Bool :=
  ndRanges.any (fun r => r.1 ≤ c.toNat && c.toNat ≤ r.2)

/-- The numeric alternative `-100\d\x7b10\x7d` of `validate_channel_id`,
applied to an exact character list.  The pattern is compiled without
`re.ASCII`, so `\d` accepts any Unicode decimal digit (`isDigitNd`), not
only `0`-`9`. -/
def matchesIdCore : List Char → Bool
  | c0 :: c1 :: c2 :: c3 :: rest =>
    c0 == '-' && c1 == '1' && c2 == '0' && c3 == '0'
      && decide (rest.length = 10) && rest.all isDigitNd
  | _ => false

/-- The numeric pattern exactly as the spec and claim word it: `-100`
followed by exactly ten digits, read as the ASCII digits `0`-`9`. -/
def specIdCore : List Char → Bool
  | c0 :: c1 :: c2 :: c3 :: rest =>
    c0 == '-' && c1 == '1' && c2 == '0' && c3 == '0'
      && decide (rest.length = 10) && rest.all Char.isDigit
  | _ => false

/-- Drop a single final newline, if present: Python's `$` (no MULTILINE)
matches at the end of the string or just before one trailing newline, so
`re.match(r"^...$", s)` also accepts `s` ending in one extra `\n`. -/
def dropTrailingLF (cs : List Char) : List Char :=
  if cs.getLast? = some '\n' then cs.dropLast else cs

/-- `validate_channel_id` (main.py:341-350): empty is rejected, otherwise
the string matches the username pattern or the numeric pattern under
Python `re.match` with `^...$` anchors (hence the trailing-newline
allowance). -/
def validate_channel_id (s : String) : Bool :=
  if s = "" then false
  else
    let core := dropTrailingLF s.data
    matchesUsernameCore core || matchesIdCore core

/-- The channel-id predicate exactly as the spec words it: true exactly
for strings matching the username pattern or the numeric pattern (`-100`
plus ten ASCII digits), with no trailing-newline allowance.  Stated
separately so it can be compared with the behaviour of the source
function. -/
def specChannelIdExact (s : String) : Bool :=
  matchesUsernameCore s.data || specIdCore s.data

/-- The channel-id pattern as the source's regexes realize it (username
alternative, or `-100` plus ten Unicode decimal digits), before the `$`
trailing-newline allowance. -/
def channelPatternExact (s : String) : Bool :=
  matchesUsernameCore s.data || matchesIdCore s.data

/-! ### Calendar arithmetic

Timestamps are seconds on the proleptic Gregorian timeline with day 0 =
0001-01-01, i.e. `Python ordinal - 1` days.  The helpers mirror CPython's
`datetime` internals (`_days_before_year`, `_days_before_month`,
`_ord2ymd`). -/

def isLeap (y : Nat) : Bool :=
  y % 4 = 0 && (y % 100 ≠ 0 || y % 400 = 0)

/-- `_DAYS_IN_MONTH` of CPython `datetime` (month 1-12, February without
the leap day). -/
def daysInMonthTbl : Nat → Nat
  | 1 => 31 | 2 => 28 | 3 => 31 | 4 => 30 | 5 => 31 | 6 => 30
  | 7 => 31 | 8 => 31 | 9 => 30 | 10 => 31 | 11 => 30 | 12 => 31
  | _ => 0

/-- `_DAYS_BEFORE_MONTH` of CPython `datetime`. -/
def daysBeforeMonthTbl : Nat → Nat
  | 1 => 0 | 2 => 31 | 3 => 59 | 4 => 90 | 5 => 120 | 6 => 151
  | 7 => 181 | 8 => 212 | 9 => 243 | 10 => 273 | 11 => 304 | 12 => 334
  | _ => 0

def daysInMonth (y m : Nat) : Nat :=
  daysInMonthTbl m + (if m = 2 ∧ isLeap y then 1 else 0)

def daysBeforeMonth (y m : Nat) : Nat :=
  daysBeforeMonthTbl m + (if 2 < m ∧ isLeap y then 1 else 0)

def daysBeforeYear (y : Nat) : Nat :=
  (y - 1) * 365 + (y - 1) / 4 - (y - 1) / 100 + (y - 1) / 400

/-- Day count of a civil date: 0 for 0001-01-01. -/
def dayOfCivil (y m d : Nat) : Nat :=
  daysBeforeYear y + daysBeforeMonth y m + (d - 1)

/-- A date `datetime(y, m, d)` accepts: year 1-9999, month 1-12, day
within the month. -/
def validDate (y m d : Nat) : Bool :=
  1 ≤ y && y ≤ 9999 && 1 ≤ m && m ≤ 12 && 1 ≤ d && d ≤ daysInMonth y m

def secondsPerDay : Nat := 86400

/-- Epoch seconds of a civil datetime. -/
def toEpoch (y mo d h mi s : Nat) : Nat :=
  dayOfCivil y mo d * secondsPerDay + h * 3600 + mi * 60 + s

/-- Inverse of `dayOfCivil`: CPython's `_ord2ymd` with the input already
shifted by one (`n = ordinal - 1`). -/
def civilOfDay (n : Nat) : Nat × Nat × Nat :=
  let n400 := n / 146097
  let r0 := n % 146097
  let n100 := r0 / 36524
  let r1 := r0 % 36524
  let n4 := r1 / 1461
  let r2 := r1 % 1461
  let n1 := r2 / 365
  let r3 := r2 % 365
  let year := n400 * 400 + n100 * 100 + n4 * 4 + n1 + 1
  if n1 = 4 ∨ n100 = 4 then (year - 1, 12, 31)
  else
    let leap := n1 = 3 ∧ (n4 ≠ 24 ∨ n100 = 3)
    let month := (r3 + 50) / 32
    let preceding := daysBeforeMonthTbl month + (if 2 < month ∧ leap then 1 else 0)
    if r3 < preceding then
      let month' := month - 1
      let preceding' :=
        preceding - (daysInMonthTbl month' + (if month' = 2 ∧ leap then 1 else 0))
      (year, month', r3 - preceding' + 1)
    else (year, month, r3 - preceding + 1)

def pad2 (n : Nat) : String :=
  if n < 10 then "0" ++ toString n else toString n

def pad4 (n : Nat) : String :=
  if n < 10 then "000" ++ toString n
  else if n < 100 then "00" ++ toString n
  else if n < 1000 then "0" ++ toString n
  else toString n

/-- `datetime.isoformat()` of an epoch-seconds value (microseconds are
zero for the values produced here, so the `.ffffff` part is absent). -/
def isoOfEpoch (t : Nat) : String :=
  let day := t / secondsPerDay
  let secs := t % secondsPerDay
  let ymd := civilOfDay day
  pad4 ymd.1 ++ "-" ++ pad2 ymd.2.1 ++ "-" ++ pad2 ymd.2.2 ++ "T" ++
    pad2 (secs / 3600) ++ ":" ++ pad2 (secs % 3600 / 60) ++ ":" ++ pad2 (secs % 60)

/-! ### strptime-style parsing (main.py:363-392)

Each format of `validate_schedule_time` is matched the way CPython's
`_strptime` regexes do: a numeric directive consumes two digits when the
two-digit value is in range, else falls back to one digit; a literal must
match exactly; the whole string must be consumed.  Out-of-range component
values and invalid civil dates make `strptime`/`datetime` raise
`ValueError`, which the source catches and treats as "this format does
not parse". -/

def digitVal (c : Char) : Nat := c.toNat - 48

/-- Read a 1-2 digit number in `[lo, hi]`, two digits preferred (the
alternation order of the `_strptime` regexes). -/
def readNum2 (lo hi : Nat) : List Char → Option (Nat × List Char)
  | c1 :: c2 :: rest =>
    if c1.isDigit && c2.isDigit then
      let v := digitVal c1 * 10 + digitVal c2
      if lo ≤ v ∧ v ≤ hi then some (v, rest)
      else if lo ≤ digitVal c1 ∧ digitVal c1 ≤ hi then some (digitVal c1, c2 :: rest)
      else none
    else if c1.isDigit && lo ≤ digitVal c1 && digitVal c1 ≤ hi then
      some (digitVal c1, c2 :: rest)
    else none
  | [c1] =>
    if c1.isDigit && lo ≤ digitVal c1 && digitVal c1 ≤ hi then some (digitVal c1, [])
    else none
  | [] => none

/-- Read exactly `n` digits. -/
def readExact : Nat → List Char → Option (Nat × List Char)
  | 0, cs => some (0, cs)
  | n + 1, c :: cs =>
    if c.isDigit then
      (readExact n cs).map (fun p => (digitVal c * 10 ^ n + p.1, p.2))
    else none
  | _ + 1, [] => none

def expectChar (c : Char) : List Char → Option (List Char)
  | x :: rest => if x = c then some rest else none
  | [] => none

/-- Format `%Y-%m-%d %H:%M:%S` (`%Y` is exactly four digits in
`_strptime`). -/
def parseYmdHMS (cs : List Char) : Option Nat := do
  let (y, cs) ← readExact 4 cs
  let cs ← expectChar '-' cs
  let (mo, cs) ← readNum2 1 12 cs
  let cs ← expectChar '-' cs
  let (d, cs) ← readNum2 1 31 cs
  let cs ← expectChar ' ' cs
  let (h, cs) ← readNum2 0 23 cs
  let cs ← expectChar ':' cs
  let (mi, cs) ← readNum2 0 59 cs
  let cs ← expectChar ':' cs
  let (s, cs) ← readNum2 0 59 cs
  if cs = [] ∧ validDate y mo d then some (toEpoch y mo d h mi s) else none

/-- Format `%Y-%m-%d %H:%M`. -/
def parseYmdHM (cs : List Char) : Option Nat := do
  let (y, cs) ← readExact 4 cs
  let cs ← expectChar '-' cs
  let (mo, cs) ← readNum2 1 12 cs
  let cs ← expectChar '-' cs
  let (d, cs) ← readNum2 1 31 cs
  let cs ← expectChar ' ' cs
  let (h, cs) ← readNum2 0 23 cs
  let cs ← expectChar ':' cs
  let (mi, cs) ← readNum2 0 59 cs
  if cs = [] ∧ validDate y mo d then some (toEpoch y mo d h mi 0) else none

/-- Formats `%d/%m/%Y %H:%M` and `%d.%m.%Y %H:%M`, abstracted over the
separator character. -/
def parseDmyHM (sep : Char) (cs : List Char) : Option Nat := do
  let (d, cs) ← readNum2 1 31 cs
  let cs ← expectChar sep cs
  let (mo, cs) ← readNum2 1 12 cs
  let cs ← expectChar sep cs
  let (y, cs) ← readExact 4 cs
  let cs ← expectChar ' ' cs
  let (h, cs) ← readNum2 0 23 cs
  let cs ← expectChar ':' cs
  let (mi, cs) ← readNum2 0 59 cs
  if cs = [] ∧ validDate y mo d then some (toEpoch y mo d h mi 0) else none

/-- Format `%H:%M`, returning the raw hour and minute. -/
def parseHM (cs : List Char) : Option (Nat × Nat) := do
  let (h, cs) ← readNum2 0 23 cs
  let cs ← expectChar ':' cs
  let (mi, cs) ← readNum2 0 59 cs
  if cs = [] then some (h, mi) else none

/-- `validate_schedule_time` (main.py:363-392): try the five formats in
order; for the bare `%H:%M` form combine with today's date and roll
forward one day when the instant is not strictly in the future
(`if dt <= datetime.now(): dt += timedelta(days=1)`); return `none` when
no format parses. -/
def validate_schedule_time (now : Nat) (time_str : String) : Option Nat :=
  if time_str = "" then none
  else
    match parseYmdHMS time_str.data with
    | some t => some t
    | none =>
      match parseYmdHM time_str.data with
      | some t => some t
      | none =>
        match parseDmyHM '/' time_str.data with
        | some t => some t
        | none =>
          match parseDmyHM '.' time_str.data with
          | some t => some t
          | none =>
            match parseHM time_str.data with
            | some hm =>
              let dt := now / secondsPerDay * secondsPerDay + hm.1 * 3600 + hm.2 * 60
              some (if dt ≤ now then dt + secondsPerDay else dt)
            | none => none

/-- `datetime.fromisoformat` on the strings this program stores
(`YYYY-MM-DD` plus an optional separator and `HH:MM[:SS[.ffffff]]`);
returns epoch seconds, flooring away microseconds.  Malformed input (as
stored by hand-edited or corrupted configs) yields `none`, modelling the
`ValueError`/`TypeError` the source catches. -/
def fromisoformat (s : String) : Option Nat := do
  let cs := s.data
  let (y, cs) ← readExact 4 cs
  let cs ← expectChar '-' cs
  let (mo, cs) ← readExact 2 cs
  let cs ← expectChar '-' cs
  let (d, cs) ← readExact 2 cs
  if ¬validDate y mo d then none
  else
    match cs with
    | [] => some (toEpoch y mo d 0 0 0)
    | _ :: cs =>
      let (h, cs) ← readExact 2 cs
      let cs ← expectChar ':' cs
      let (mi, cs) ← readExact 2 cs
      if h ≥ 24 ∨ mi ≥ 60 then none
      else
        match cs with
        | [] => some (toEpoch y mo d h mi 0)
        | ':' :: cs =>
          let (sec, cs) ← readExact 2 cs
          if sec ≥ 60 then none
          else
            match cs with
            | [] => some (toEpoch y mo d h mi sec)
            | '.' :: cs =>
              if cs ≠ [] ∧ cs.length ≤ 6 ∧ cs.all Char.isDigit then
                some (toEpoch y mo d h mi sec)
              else none
            | _ => none
        | _ => none

/-! ### ConfigManager: admins (main.py:136-201) -/

/-- The admin list of the default-initialized configuration
(main.py:139): exactly the owner. -/
def defaultAdmins (owner : String) : List String := [owner]

/-- `ConfigManager.add_admin` (main.py:183-190). -/
def add_admin (admins : List String) (admin_id : String) : Bool × List String :=
  if admin_id ∈ admins then (false, admins) else (true, admins ++ [admin_id])

/-- `ConfigManager.remove_admin` (main.py:192-201): the comparison with
the owner id comes before anything else, so a removal targeting the owner
returns false with the list untouched.  `list.remove` drops the first
occurrence, i.e. `List.erase`. -/
def remove_admin (owner : String) (admins : List String) (admin_id : String) :
    Bool × List String :=
  if admin_id = owner then (false, admins)
  else if admin_id ∈ admins then (true, admins.erase admin_id)
  else (false, admins)

/-- A step of the admin-set lifecycle: the only operations that touch the
`admins` list. -/
inductive AdminOp where
  | add (id : String)
  | remove (id : String)

def applyAdminOp (owner : String) (admins : List String) : AdminOp → List String
  | .add id => (add_admin admins id).2
  | .remove id => (remove_admin owner admins id).2

def applyAdminOps (owner : String) (admins : List String) :
    List AdminOp → List String
  | [] => admins
  | op :: ops => applyAdminOps owner (applyAdminOp owner admins op) ops

/-! ### ConfigManager: scheduled jobs (main.py:238-276) -/

/-- A `scheduled_posts` record: the stored `schedule_time` is a raw
string (parsed with `fromisoformat` at every use and possibly
malformed). -/
structure Job where
  schedule_time : String
  batch : List Msg
  channels : List String
  admin_id : String
deriving DecidableEq, Repr

/-- The `scheduled_posts` dict: insertion-ordered, unique keys. -/
abbrev JobMap := List (String × Job)

def keys (jobs : JobMap) : List String := jobs.map Prod.fst

/-- `ConfigManager.add_scheduled_job` (main.py:238-242): dict assignment,
overwriting an existing key or appending a new one. -/
def add_scheduled_job (jobs : JobMap) (job_id : String) (jd : Job) : JobMap :=
  if job_id ∈ keys jobs then
    jobs.map (fun p => if p.1 = job_id then (job_id, jd) else p)
  else jobs ++ [(job_id, jd)]

/-- `ConfigManager.remove_scheduled_job` (main.py:244-251). -/
def remove_scheduled_job (jobs : JobMap) (job_id : String) : Bool × JobMap :=
  if job_id ∈ keys jobs then (true, jobs.filter (fun p => p.1 ≠ job_id))
  else (false, jobs)

/-- `ConfigManager.cleanup_expired_jobs` (main.py:257-276): one pass
collects the ids whose stored time is more than one hour past
(`current_time > schedule_time + timedelta(hours=1)`) or does not parse;
a second pass deletes them; when any were collected a log line records
the removal.  Returns the new map together with the removed ids. -/
def cleanup_expired_jobs (now : Nat) (jobs : JobMap) : JobMap × List String :=
  let expired := jobs.filterMap fun p =>
    match fromisoformat p.2.schedule_time with
    | some t => if t + 3600 < now then some p.1 else none
    | none => some p.1
  (jobs.filter (fun p => p.1 ∉ expired), expired)

/-! ### Dispatcher (main.py:1207-1354 and 2313-2422) -/

/-- The settings the dispatcher reads (main.py:1224-1226, 2326-2328). -/
structure Settings where
  default_delay : ℚ
  max_retries : Nat
  footer : String
deriving DecidableEq, Repr

/-- Outcome oracle for network sends: `oracle k` tells whether the k-th
send call of the run (counted globally) completes without raising. -/
abbrev SendOracle := Nat → Bool

/-- Observable dispatcher actions: a send attempt (with the payload text
or caption actually passed and its outcome) and an `asyncio.sleep`. -/
inductive Event where
  | send (channel : String) (payload : String) (ok : Bool)
  | sleep (delay : ℚ)
deriving DecidableEq, Repr

def Event.isSleep : Event → Bool
  | .sleep _ => true
  | _ => false

/-- Footer concatenation performed before each send attempt
(`if footer: content += "\n\n" + footer`, main.py:1254-1255 etc.): the
empty footer is falsy and appends nothing. -/
def withFooter (footer body : String) : String :=
  if footer = "" then body else body ++ "\n\n" ++ footer

/-- The text (for a text message) or caption (for media) passed to the
send call, footer included. -/
def Msg.payload (footer : String) : Msg → String
  | .text c => withFooter footer c
  | .photo _ cap => withFooter footer cap
  | .video _ cap => withFooter footer cap
  | .document _ cap => withFooter footer cap

/-- The `for attempt in range(max_retries)` loop shared verbatim by
`execute_post` (main.py:1249-1305) and `execute_scheduled_job`
(main.py:2336-2390): attempt the send; on success break out of the loop;
on an exception log and go to the next attempt.  Returns the attempt
events, whether some attempt succeeded, and the advanced oracle counter.
The `if success and delay > 0: await asyncio.sleep(delay)` statement of
`execute_post` (main.py:1307-1308) also sits inside this loop, but every
path that reaches it has `success == False` (a successful attempt has
already left the loop through the `break` at main.py:1299), so it never
sleeps and contributes nothing here. -/
def retryLoop (oracle : SendOracle) (ch payload : String) :
    Nat → Nat → List Event × Bool × Nat
  | ctr, 0 => ([], false, ctr)
  | ctr, fuel + 1 =>
    if oracle ctr then ([Event.send ch payload true], true, ctr + 1)
    else
      let r := retryLoop oracle ch payload (ctr + 1) fuel
      (Event.send ch payload false :: r.1, r.2.1, r.2.2)

/-- One (channel, message) pair.  In `execute_scheduled_job` the
`if success and delay > 0: await asyncio.sleep(delay)` statement sits
after the retry loop (main.py:2392-2393) and so fires on success;
`sleepAfter` is true for that variant and false for `execute_post`, whose
structurally identical sleep is unreachable (see `retryLoop`). -/
def pairRun (sleepAfter : Bool) (oracle : SendOracle) (s : Settings)
    (ch : String) (m : Msg) (ctr : Nat) : List Event × Bool × Nat :=
  let payload := m.payload s.footer
  let r := retryLoop oracle ch payload ctr s.max_retries
  if sleepAfter ∧ r.2.1 ∧ 0 < s.default_delay then
    (r.1 ++ [Event.sleep s.default_delay], r.2.1, r.2.2)
  else r

/-- Per-channel tallies and events of the inner `for msg_data in batch`
loop.  A pair increments the channel's success count when some attempt
succeeded, and its failure count when the last attempt
(`attempt == max_retries - 1`) failed — which is exactly when no attempt
succeeded and the loop ran at all. -/
structure ChanOut where
  events : List Event
  succ : Nat
  fail : Nat
  ctr : Nat
deriving Repr

def channelRun (sleepAfter : Bool) (oracle : SendOracle) (s : Settings)
    (ch : String) : List Msg → Nat → ChanOut
  | [], ctr => ⟨[], 0, 0, ctr⟩
  | m :: ms, ctr =>
    let r := pairRun sleepAfter oracle s ch m ctr
    let rest := channelRun sleepAfter oracle s ch ms r.2.2
    ⟨r.1 ++ rest.events,
     (if r.2.1 then 1 else 0) + rest.succ,
     (if ¬r.2.1 ∧ 0 < s.max_retries then 1 else 0) + rest.fail,
     rest.ctr⟩

/-- Aggregate result of a dispatch: the flat event trace, the
`successful_posts` / `failed_posts` totals and the per-channel
`channel_results`. -/
structure Dispatch where
  events : List Event
  successful_posts : Nat
  failed_posts : Nat
  channel_results : List (String × Nat × Nat)
  ctr : Nat
deriving Repr

/-- The outer `for channel_id in ...` loop over the channel set,
shared by both dispatch variants. -/
def dispatchRun (sleepAfter : Bool) (oracle : SendOracle) (s : Settings) :
    List String → List Msg → Nat → Dispatch
  | [], _, ctr => ⟨[], 0, 0, [], ctr⟩
  | ch :: chs, batch, ctr =>
    let c := channelRun sleepAfter oracle s ch batch ctr
    let rest := dispatchRun sleepAfter oracle s chs batch c.ctr
    ⟨c.events ++ rest.events, c.succ + rest.successful_posts,
     c.fail + rest.failed_posts, (ch, c.succ, c.fail) :: rest.channel_results,
     rest.ctr⟩

/-- The send loop of `execute_post` (main.py:1244-1308): the sleep there
is dead code, so no pause ever occurs. -/
def executePostDispatch (oracle : SendOracle) (s : Settings)
    (channels : List String) (batch : List Msg) (ctr : Nat) : Dispatch :=
  dispatchRun false oracle s channels batch ctr

/-- The send loop of `execute_scheduled_job` (main.py:2333-2393): pauses
after each successfully delivered message when the delay is positive. -/
def executeScheduledDispatch (oracle : SendOracle) (s : Settings)
    (channels : List String) (batch : List Msg) (ctr : Nat) : Dispatch :=
  dispatchRun true oracle s channels batch ctr

/-- The per-operator in-memory session state `context.user_data` touched
by `execute_post`. -/
structure UserData where
  batch : List Msg
  selected_channels : List String
deriving DecidableEq, Repr

/-- `execute_post` (main.py:1207-1354): early return when the batch or
the channel selection is empty; otherwise run the dispatch and then clear
both the batch and the selection (main.py:1318-1320) whatever the send
outcomes were.  The statistics updates and the result rendering between
the dispatch and the reply are presentation-layer side effects outside
the claims. -/
def execute_post (oracle : SendOracle) (s : Settings) (ud : UserData)
    (ctr : Nat) : UserData × Option Dispatch :=
  if ud.batch = [] ∨ ud.selected_channels = [] then (ud, none)
  else
    let d := executePostDispatch oracle s ud.selected_channels ud.batch ctr
    (⟨[], []⟩, some d)

/-- `execute_scheduled_job` (main.py:2313-2422): early return when the
job record has no batch or no channels; otherwise dispatch with the
post-success sleep.  The stats update and the admin notification after
the loop are not modelled. -/
def execute_scheduled_job (oracle : SendOracle) (s : Settings) (j : Job)
    (ctr : Nat) : List Event × Nat :=
  if j.batch = [] ∨ j.channels = [] then ([], ctr)
  else
    let d := executeScheduledDispatch oracle s j.channels j.batch ctr
    (d.events, d.ctr)

/-! ### Scheduler tick (main.py:2279-2311) -/

/-- The due-job scan of `run_scheduled_jobs` (main.py:2287-2295).  The
scan iterates the live `scheduled_posts` dict, and on an unparseable
`schedule_time` it deletes that entry from the very dict being iterated;
the next iteration step then raises `RuntimeError: dictionary changed
size during iteration`, which propagates to the outer `except`
(main.py:2310-2311).  So the tick stops right after the first invalid
job is removed: `.error id` reports that outcome (the due jobs collected
so far are discarded with the local list), `.ok due` a completed scan. -/
def scanDue (now : Nat) : JobMap → Except String JobMap
  | [] => .ok []
  | (id, j) :: rest =>
    match fromisoformat j.schedule_time with
    | none => .error id
    | some t =>
      match scanDue now rest with
      | .ok due => .ok (if t ≤ now then (id, j) :: due else due)
      | .error e => .error e

/-- Whether a stored job is due at `now`: its time parses and
`now >= schedule_time` (main.py:2289-2290). -/
def isDue (now : Nat) (p : String × Job) : Bool :=
  match fromisoformat p.2.schedule_time with
  | some t => t ≤ now
  | none => false

/-- Result of one tick: the stored jobs afterwards, the ids executed, the
dispatch event trace, and the ids whose removal the two log statements
(invalid schedule time, expiry sweep) record. -/
structure TickOut where
  jobs : JobMap
  executed : List String
  events : List Event
  invalid_removed : List String
  expired_removed : List String
  ctr : Nat
deriving Repr

/-- The execute-and-delete loop of `run_scheduled_jobs`
(main.py:2297-2305): each due job is executed (exceptions are caught) and
its record is removed either way. -/
def execLoop (oracle : SendOracle) (s : Settings) :
    JobMap → JobMap → Nat → JobMap × List String × List Event × Nat
  | [], jobs, ctr => (jobs, [], [], ctr)
  | (id, j) :: due, jobs, ctr =>
    let e := execute_scheduled_job oracle s j ctr
    let rest := execLoop oracle s due (remove_scheduled_job jobs id).2 e.2
    (rest.1, id :: rest.2.1, e.1 ++ rest.2.2.1, rest.2.2.2)

/-- `run_scheduled_jobs` (main.py:2279-2311), one tick at `now`: scan for
due jobs (aborting right after the first invalid-time removal, see
`scanDue`); execute and delete each due job; then run the expiry sweep.
The model assumes the config cache is not reloaded mid-tick (the 60s
staleness window does not elapse inside one invocation). -/
def run_scheduled_jobs (oracle : SendOracle) (s : Settings) (now : Nat)
    (jobs : JobMap) (ctr : Nat) : TickOut :=
  match scanDue now jobs with
  | .error id =>
    { jobs := (remove_scheduled_job jobs id).2, executed := [], events := [],
      invalid_removed := [id], expired_removed := [], ctr := ctr }
  | .ok due =>
    let r := execLoop oracle s due jobs ctr
    let c := cleanup_expired_jobs now r.1
    { jobs := c.1, executed := r.2.1, events := r.2.2.1,
      invalid_removed := [], expired_removed := c.2, ctr := r.2.2.2 }

/-! ### Scheduled-job creation -/

def concatAll : List String → String
  | [] => ""
  | s :: rest => s ++ concatAll rest

/-- Fresh job id: the concatenation of all existing keys plus one more
character is strictly longer than every key, hence unused.  Stands in for
`uuid4()` (imported at main.py:8 but never called). -/
def freshJobId (jobs : JobMap) : String :=
  concatAll (keys jobs) ++ "x"

/-- Modelled from the spec: the handler that turns a confirmed
(batch, channels, time) triple into a stored job is absent from the
source — `uuid4` is imported (main.py:8) and
`ConfigManager.add_scheduled_job` (main.py:238-242) is defined, but
nothing calls them.  Following §4.5 of the spec: reject when the
requested time is not strictly in the future (the
`schedule_dt <= datetime.now()` check of `schedule_batch_confirm`,
main.py:1105), when the batch is empty, or when the channel set is empty;
otherwise generate a fresh unique id, persist the record through the
config store, and return the id. -/
def create (now : Nat) (batch : List Msg) (channels : List String)
    (at_time : Nat) (admin_id : String) (jobs : JobMap) :
    Option String × JobMap :=
  if at_time ≤ now ∨ batch = [] ∨ channels = [] then (none, jobs)
  else
    let id := freshJobId jobs
    (some id, add_scheduled_job jobs id ⟨isoOfEpoch at_time, batch, channels, admin_id⟩)

/-! ## Theorems -/

/-! ### Admin-set invariant (C5) -/

theorem owner_mem_applyAdminOp (owner : String) (admins : List String)
    (op : AdminOp) (h : owner ∈ admins) :
    owner ∈ applyAdminOp owner admins op := by
  cases op with
  | add id =>
    by_cases hid : id ∈ admins
    · simpa [applyAdminOp, add_admin, hid] using h
    · simp only [applyAdminOp, add_admin, hid, if_neg]
      exact List.mem_append_left _ h
  | remove id =>
    by_cases h1 : id = owner
    · simpa [applyAdminOp, remove_admin, h1] using h
    · by_cases h2 : id ∈ admins
      · simp only [applyAdminOp, remove_admin, h1, h2, if_neg, if_pos,
          if_true, if_false]
        exact (List.mem_erase_of_ne (fun he => h1 he.symm)).2 h
      · simpa [applyAdminOp, remove_admin, h1, h2] using h

theorem owner_mem_applyAdminOps (owner : String) :
    ∀ (ops : List AdminOp) (admins : List String), owner ∈ admins →
      owner ∈ applyAdminOps owner admins ops
  | [], _, h => h
  | op :: ops, admins, h =>
    owner_mem_applyAdminOps owner ops _ (owner_mem_applyAdminOp owner admins op h)

/-- C5: the owner id is always present in the admin set: it is present in
the default-initialized configuration; every `remove_admin` call whose
target equals the owner id returns false and leaves the admin list
unchanged; and no sequence of `add_admin`/`remove_admin` operations
starting from the initial state removes the owner. -/
theorem owner_always_admin (owner : String) :
    owner ∈ defaultAdmins owner ∧
    (∀ admins : List String, remove_admin owner admins owner = (false, admins)) ∧
    (∀ ops : List AdminOp, owner ∈ applyAdminOps owner (defaultAdmins owner) ops) := by
  refine ⟨by simp [defaultAdmins], fun admins => by simp [remove_admin], fun ops => ?_⟩
  exact owner_mem_applyAdminOps owner ops _ (by simp [defaultAdmins])

/-! ### Batch cap (C6) -/

/-- C6: appending to a batch of length `MAX_BATCH_MESSAGES` fails with
the batch-full result and leaves the batch unchanged; appending below the
cap adds the message and the new length is the old length plus one. -/
theorem add_to_batch_cap :
    (∀ (batch : List Msg) (m : Msg), batch.length = MAX_BATCH_MESSAGES →
      add_to_batch batch m = (AddResult.batchFull, batch)) ∧
    (∀ (batch : List Msg) (m : Msg), batch.length < MAX_BATCH_MESSAGES →
      add_to_batch batch m = (AddResult.added (batch.length + 1), batch ++ [m]) ∧
        (add_to_batch batch m).2.length = batch.length + 1) := by
  constructor
  · intro batch m h
    simp [add_to_batch, h]
  · intro batch m h
    have hn : ¬batch.length ≥ MAX_BATCH_MESSAGES := by omega
    refine ⟨by simp [add_to_batch, hn], ?_⟩
    simp [add_to_batch, hn]

theorem add_to_batch_cap_witness :
    add_to_batch (List.replicate 100 (Msg.text "m")) (Msg.text "n") =
      (AddResult.batchFull, List.replicate 100 (Msg.text "m")) ∧
    add_to_batch [] (Msg.text "n") = (AddResult.added 1, [Msg.text "n"]) :=
  ⟨add_to_batch_cap.1 _ _ (by simp [MAX_BATCH_MESSAGES]),
   (add_to_batch_cap.2 [] (Msg.text "n") (by simp [MAX_BATCH_MESSAGES])).1⟩

/-! ### Bulk text-file ingestion (C7) -/

theorem ingestLoop_count (segs : List String) :
    ∀ (batch : List Msg) (cnt : Nat),
      (ingestLoop segs batch cnt).1 + batch.length =
        (ingestLoop segs batch cnt).2.length + cnt := by
  induction segs with
  | nil => intro batch cnt; simp [ingestLoop]; omega
  | cons seg rest ih =>
    intro batch cnt
    by_cases hfull : batch.length ≥ MAX_BATCH_MESSAGES
    · simp [ingestLoop, hfull]; omega
    · by_cases hv : validate_message_content seg false
      · have h := ih (batch ++ [Msg.text seg]) (cnt + 1)
        simp only [ingestLoop, hfull, hv, if_neg, if_pos, if_true, if_false,
          List.length_append, List.length_singleton] at h ⊢
        omega
      · simpa [ingestLoop, hfull, hv] using ih batch cnt

theorem ingestLoop_cap (segs : List String) :
    ∀ (batch : List Msg) (cnt : Nat), batch.length ≤ MAX_BATCH_MESSAGES →
      (ingestLoop segs batch cnt).2.length ≤ MAX_BATCH_MESSAGES := by
  induction segs with
  | nil => intro batch cnt h; simpa [ingestLoop] using h
  | cons seg rest ih =>
    intro batch cnt h
    by_cases hfull : batch.length ≥ MAX_BATCH_MESSAGES
    · simpa [ingestLoop, hfull] using h
    · by_cases hv : validate_message_content seg false
      · have h' : (batch ++ [Msg.text seg]).length ≤ MAX_BATCH_MESSAGES := by
          simp only [List.length_append, List.length_singleton]; omega
        simpa [ingestLoop, hfull, hv] using ih (batch ++ [Msg.text seg]) (cnt + 1) h'
      · simpa [ingestLoop, hfull, hv] using ih batch cnt h

/-- C7: bulk text-file ingestion splits on the blank-line delimiter,
trims each segment, discards empty and over-long segments, appends the
rest as text messages up to the batch cap and reports the count actually
added: on `"A\n\nB\n\nC"` with an empty batch it adds exactly the three
text messages `"A"`, `"B"`, `"C"`; the reported count always equals the
number of messages actually appended; and the batch never grows past the
cap. -/
theorem addFromTextBlob_spec :
    addFromTextBlob [] "A\n\nB\n\nC" =
      (3, [Msg.text "A", Msg.text "B", Msg.text "C"]) ∧
    (∀ (batch : List Msg) (text : String),
      (addFromTextBlob batch text).1 + batch.length =
        (addFromTextBlob batch text).2.length) ∧
    (∀ (batch : List Msg) (text : String), batch.length ≤ MAX_BATCH_MESSAGES →
      (addFromTextBlob batch text).2.length ≤ MAX_BATCH_MESSAGES) := by
  refine ⟨by decide, fun batch text => ?_, fun batch text h => ?_⟩
  · simpa using ingestLoop_count _ batch 0
  · exact ingestLoop_cap _ batch 0 h

theorem addFromTextBlob_spec_witness :
    (addFromTextBlob [] "A\n\nB\n\nC").2.length ≤ MAX_BATCH_MESSAGES :=
  addFromTextBlob_spec.2.2 [] "A\n\nB\n\nC" (by simp)

/-! ### Channel-id validation (C8) -/

theorem usernameCore_concat_lf (cs : List Char) :
    matchesUsernameCore (cs ++ ['\n']) = false := by
  rcases cs with _ | ⟨a, _ | ⟨b, t⟩⟩
  · rfl
  · simp [matchesUsernameCore]
  · have hlf : (('\n' : Char).isAlphanum || '\n' == '_') = false := by decide
    simp [matchesUsernameCore, List.all_append, hlf]

theorem idCore_concat_lf (cs : List Char) :
    matchesIdCore (cs ++ ['\n']) = false := by
  rcases cs with _ | ⟨a, _ | ⟨b, _ | ⟨c, _ | ⟨d, t⟩⟩⟩⟩
  · rfl
  · simp [matchesIdCore]
  · simp [matchesIdCore]
  · simp [matchesIdCore]
  · have hlf : isDigitNd '\n' = false := by decide
    simp [matchesIdCore, List.all_append, hlf]

theorem isDigit_isDigitNd (c : Char) (h : c.isDigit = true) :
    isDigitNd c = true := by
  simp only [Char.isDigit, ge_iff_le, Bool.and_eq_true, decide_eq_true_eq] at h
  refine List.any_eq_true.2 ⟨(0x30, 0x39), by decide, ?_⟩
  have h1 : (48 : Nat) ≤ c.toNat := h.1
  have h2 : c.toNat ≤ 57 := h.2
  simp only [Bool.and_eq_true, decide_eq_true_eq]
  exact ⟨h1, h2⟩

theorem specIdCore_le_matchesIdCore (cs : List Char)
    (h : specIdCore cs = true) : matchesIdCore cs = true := by
  rcases cs with _ | ⟨a, _ | ⟨b, _ | ⟨c, _ | ⟨d, t⟩⟩⟩⟩ <;>
    simp only [specIdCore] at h
  · cases h
  · cases h
  · cases h
  · cases h
  · simp only [Bool.and_eq_true, List.all_eq_true] at h
    obtain ⟨⟨⟨⟨⟨ha, hb⟩, hc⟩, hd⟩, hlen⟩, hall⟩ := h
    simp only [matchesIdCore, Bool.and_eq_true, List.all_eq_true]
    exact ⟨⟨⟨⟨⟨ha, hb⟩, hc⟩, hd⟩, hlen⟩,
      fun x hx => isDigit_isDigitNd x (hall x hx)⟩

theorem dropTrailingLF_match_iff (cs : List Char) :
    (matchesUsernameCore (dropTrailingLF cs)
      || matchesIdCore (dropTrailingLF cs)) = true ↔
    ((matchesUsernameCore cs || matchesIdCore cs) = true ∨
      ∃ t : List Char, cs = t ++ ['\n'] ∧
        (matchesUsernameCore t || matchesIdCore t) = true) := by
  rcases List.eq_nil_or_concat cs with rfl | ⟨init, b, hcs⟩
  · constructor
    · intro h; exact Or.inl (by simpa [dropTrailingLF] using h)
    · rintro (h | ⟨t, ht, _⟩)
      · simpa [dropTrailingLF] using h
      · exact absurd ht (by simp)
  · rw [List.concat_eq_append] at hcs
    subst hcs
    by_cases hb : b = '\n'
    · subst hb
      have hdrop : dropTrailingLF (init ++ ['\n']) = init := by
        simp [dropTrailingLF, List.getLast?_concat, List.dropLast_concat]
      rw [hdrop]
      constructor
      · intro h; exact Or.inr ⟨init, rfl, h⟩
      · rintro (h | ⟨t, ht, h⟩)
        · rw [usernameCore_concat_lf, idCore_concat_lf] at h
          exact absurd h (by simp)
        · have hti : t = init := by
            have h1 := congrArg List.dropLast ht
            simpa [List.dropLast_concat] using h1.symm
          rwa [hti] at h
    · have hdrop : dropTrailingLF (init ++ [b]) = init ++ [b] := by
        have : (init ++ [b]).getLast? = some b := List.getLast?_concat _
        simp [dropTrailingLF, this, hb]
      rw [hdrop]
      constructor
      · exact Or.inl
      · rintro (h | ⟨t, ht, h⟩)
        · exact h
        · have : b = '\n' := by
            have h1 := congrArg List.getLast? ht
            simpa [List.getLast?_concat] using h1
          exact absurd this hb

/-- C8 counterexample: the claim says the validator returns false for
every string not matching the two patterns, but it accepts more.
Python's `$` in `re.match` also matches just before one trailing
newline, so `"@abcde\n"` is accepted; and `\d` compiled without
`re.ASCII` matches any Unicode decimal digit, so `-100` followed by ten
Arabic-Indic digits (U+0660) is accepted too.  Neither string matches
the patterns as the claim words them. -/
theorem validate_channel_id_counterexample :
    validate_channel_id "@abcde\n" = true ∧
    specChannelIdExact "@abcde\n" = false ∧
    validate_channel_id
      "-100٠٠٠٠٠٠٠٠٠٠"
        = true ∧
    specChannelIdExact
      "-100٠٠٠٠٠٠٠٠٠٠"
        = false := by
  refine ⟨by decide, by decide, by decide, by decide⟩

/-- C8 amended: the channel-id validator returns true exactly for the
strings matching the username pattern (`@` then a letter then 4-31 ASCII
alphanumerics/underscores) or the numeric pattern `-100` followed by
exactly ten Unicode decimal digits (Python's `\d` without `re.ASCII`),
or such a string followed by one trailing newline (Python's `$` matches
before a final newline); it returns false for every other string,
including `"abc"`, `"-99123"` and `"@a"`.  Every string the claim calls
valid (ten ASCII digits) is still accepted: the spec-worded patterns
imply the realized ones. -/
theorem validate_channel_id_spec :
    (∀ s : String, validate_channel_id s = true ↔
      (channelPatternExact s = true ∨
        ∃ t : String, s = t ++ "\n" ∧ channelPatternExact t = true)) ∧
    (∀ s : String, specChannelIdExact s = true → channelPatternExact s = true) ∧
    validate_channel_id "abc" = false ∧
    validate_channel_id "-99123" = false ∧
    validate_channel_id "@a" = false := by
  refine ⟨fun s => ?_, fun s h => ?_, by decide, by decide, by decide⟩
  · by_cases hs : s = ""
    · subst hs
      constructor
      · intro h; exact absurd h (by decide)
      · rintro (h | ⟨t, ht, _⟩)
        · exact absurd h (by decide)
        · have h1 := congrArg String.length ht
          rw [String.length_append] at h1
          have h2 : ("\n" : String).length = 1 := rfl
          have h0 : ("" : String).length = 0 := rfl
          rw [h2, h0] at h1
          omega
    · unfold validate_channel_id channelPatternExact
      rw [if_neg hs]
      rw [dropTrailingLF_match_iff s.data]
      constructor
      · rintro (h | ⟨t, ht, h⟩)
        · exact Or.inl h
        · refine Or.inr ⟨String.mk t, String.ext ?_, h⟩
          rw [String.data_append, ht]
      · rintro (h | ⟨t, ht, h⟩)
        · exact Or.inl h
        · refine Or.inr ⟨t.data, ?_, h⟩
          rw [ht, String.data_append]
  · unfold specChannelIdExact at h
    unfold channelPatternExact
    simp only [Bool.or_eq_true] at h ⊢
    rcases h with hu | hi
    · exact Or.inl hu
    · exact Or.inr (specIdCore_le_matchesIdCore s.data hi)

/-! ### Dispatcher pause (C1) -/

theorem retryLoop_no_sleep (oracle : SendOracle) (ch p : String) :
    ∀ (fuel ctr : Nat),
      ((retryLoop oracle ch p ctr fuel).1).filter Event.isSleep = []
  | 0, _ => rfl
  | fuel + 1, ctr => by
    by_cases h : oracle ctr
    · simp [retryLoop, h, Event.isSleep]
    · have ih := retryLoop_no_sleep oracle ch p fuel (ctr + 1)
      simp [retryLoop, h, Event.isSleep, ih]

theorem pairRun_false_no_sleep (oracle : SendOracle) (s : Settings)
    (ch : String) (m : Msg) (ctr : Nat) :
    ((pairRun false oracle s ch m ctr).1).filter Event.isSleep = [] := by
  simp only [pairRun, false_and, if_false, Bool.false_eq_true, if_neg,
    not_false_eq_true]
  exact retryLoop_no_sleep oracle ch (m.payload s.footer) s.max_retries ctr

theorem channelRun_false_no_sleep (oracle : SendOracle) (s : Settings)
    (ch : String) :
    ∀ (ms : List Msg) (ctr : Nat),
      ((channelRun false oracle s ch ms ctr).events).filter Event.isSleep = []
  | [], _ => rfl
  | m :: ms, ctr => by
    have h1 := pairRun_false_no_sleep oracle s ch m ctr
    have h2 := channelRun_false_no_sleep oracle s ch ms
      (pairRun false oracle s ch m ctr).2.2
    simp [channelRun, List.filter_append, h1, h2]

theorem dispatchRun_false_no_sleep (oracle : SendOracle) (s : Settings) :
    ∀ (channels : List String) (batch : List Msg) (ctr : Nat),
      ((dispatchRun false oracle s channels batch ctr).events).filter
        Event.isSleep = []
  | [], _, _ => rfl
  | ch :: chs, batch, ctr => by
    have h1 := channelRun_false_no_sleep oracle s ch batch ctr
    have h2 := dispatchRun_false_no_sleep oracle s chs batch
      (channelRun false oracle s ch batch ctr).ctr
    simp [dispatchRun, List.filter_append, h1, h2]

/-- C1: the claimed pause never happens on the immediate-post path.  In
`execute_post` the `await asyncio.sleep(delay)` (main.py:1307-1308) sits
inside the retry loop guarded by `success`, yet every successful attempt
leaves the loop through `break` (main.py:1299) before reaching it, so the
dispatcher never sleeps, whatever the settings, channels, batch or send
outcomes; the structurally identical `execute_scheduled_job` loop has the
sleep after the retry loop (main.py:2392-2393) and does pause, as the
concrete run with delay 1 shows, while `execute_post` on the same input
emits the send and no sleep (its per-channel tally still records the
success). -/
theorem execute_post_never_pauses :
    (∀ (oracle : SendOracle) (s : Settings) (channels : List String)
        (batch : List Msg) (ctr : Nat),
      ((executePostDispatch oracle s channels batch ctr).events).filter
        Event.isSleep = []) ∧
    (executeScheduledDispatch (fun _ => true) ⟨1, 3, ""⟩ ["-1001111111111"]
        [Msg.text "hi"] 0).events =
      [Event.send "-1001111111111" "hi" true, Event.sleep 1] ∧
    (executePostDispatch (fun _ => true) ⟨1, 3, ""⟩ ["-1001111111111"]
        [Msg.text "hi"] 0).events = [Event.send "-1001111111111" "hi" true] ∧
    (executePostDispatch (fun _ => true) ⟨1, 3, ""⟩ ["-1001111111111"]
        [Msg.text "hi"] 0).channel_results = [("-1001111111111", 1, 0)] := by
  refine ⟨fun oracle s channels batch ctr => ?_, by decide, by decide, by decide⟩
  exact dispatchRun_false_no_sleep oracle s channels batch ctr

/-! ### Schedule-time parsing (C9) -/

theorem validate_schedule_time_hm_eq (now : Nat) :
    validate_schedule_time now "23:59" =
      some (if now / 86400 * 86400 + 86340 ≤ now
        then now / 86400 * 86400 + 86340 + 86400
        else now / 86400 * 86400 + 86340) := by
  have h1 : parseYmdHMS ("23:59").data = none := by decide
  have h2 : parseYmdHM ("23:59").data = none := by decide
  have h3 : parseDmyHM '/' ("23:59").data = none := by decide
  have h4 : parseDmyHM '.' ("23:59").data = none := by decide
  have h5 : parseHM ("23:59").data = some (23, 59) := by decide
  have hne : ("23:59" : String) ≠ "" := by decide
  simp only [validate_schedule_time, hne, if_neg, if_false, h1, h2, h3, h4, h5,
    secondsPerDay]

/-- C9: parsing a bare HH:MM resolves against the current date and rolls
forward one day exactly when the resulting instant is not strictly in the
future: at 23:58:30 the input "23:59" resolves to today 23:59, at
23:59:30 to tomorrow 23:59; and whenever none of the five formats
parses, the function returns the no-match sentinel (it is a total
function, so it never throws). -/
theorem validate_schedule_time_spec :
    (∀ d : Nat, validate_schedule_time (d * 86400 + 86310) "23:59" =
      some (d * 86400 + 86340)) ∧
    (∀ d : Nat, validate_schedule_time (d * 86400 + 86370) "23:59" =
      some ((d + 1) * 86400 + 86340)) ∧
    (∀ now : Nat, validate_schedule_time now "23:59" =
      some (if now / 86400 * 86400 + 86340 ≤ now
        then now / 86400 * 86400 + 86340 + 86400
        else now / 86400 * 86400 + 86340)) ∧
    (∀ (now : Nat) (time_str : String),
      parseYmdHMS time_str.data = none → parseYmdHM time_str.data = none →
      parseDmyHM '/' time_str.data = none → parseDmyHM '.' time_str.data = none →
      parseHM time_str.data = none →
      validate_schedule_time now time_str = none) ∧
    (∀ now : Nat, validate_schedule_time now "not a time" = none) := by
  have hdiv : ∀ d r : Nat, r < 86400 → (d * 86400 + r) / 86400 = d := by
    intro d r hr
    rw [Nat.mul_comm d 86400, Nat.mul_add_div (by norm_num)]
    omega
  have hgen : ∀ (now : Nat) (time_str : String),
      parseYmdHMS time_str.data = none → parseYmdHM time_str.data = none →
      parseDmyHM '/' time_str.data = none → parseDmyHM '.' time_str.data = none →
      parseHM time_str.data = none →
      validate_schedule_time now time_str = none := by
    intro now time_str h1 h2 h3 h4 h5
    by_cases hempty : time_str = ""
    · simp [validate_schedule_time, hempty]
    · simp only [validate_schedule_time, hempty, if_neg, if_false, h1, h2, h3,
        h4, h5]
  refine ⟨fun d => ?_, fun d => ?_, validate_schedule_time_hm_eq, hgen,
    fun now => ?_⟩
  · rw [validate_schedule_time_hm_eq, hdiv d 86310 (by norm_num)]
    rw [if_neg (by omega)]
  · rw [validate_schedule_time_hm_eq, hdiv d 86370 (by norm_num)]
    rw [if_pos (by omega)]
    have he : d * 86400 + 86340 + 86400 = (d + 1) * 86400 + 86340 := by ring
    rw [he]
  · exact hgen now "not a time" (by decide) (by decide) (by decide) (by decide)
      (by decide)

theorem validate_schedule_time_spec_witness :
    validate_schedule_time 0 "xyz" = none ∧
    validate_schedule_time 86310 "23:59" = some 86340 :=
  ⟨validate_schedule_time_spec.2.2.2.1 0 "xyz" (by decide) (by decide)
      (by decide) (by decide) (by decide),
   by simpa using validate_schedule_time_spec.1 0⟩

/-! ### Scheduled-job creation (C3) -/

theorem concatAll_length_mem (k : String) :
    ∀ l : List String, k ∈ l → k.length ≤ (concatAll l).length := by
  intro l hl
  induction l with
  | nil => cases hl
  | cons s rest ih =>
    rcases List.mem_cons.1 hl with rfl | hmem
    · simp [concatAll, String.length_append]
    · have := ih hmem
      simp only [concatAll, String.length_append]
      omega

theorem freshJobId_not_mem (jobs : JobMap) : freshJobId jobs ∉ keys jobs := by
  intro h
  have hle := concatAll_length_mem _ (keys jobs) h
  have hx : ("x" : String).length = 1 := rfl
  have hlen : (freshJobId jobs).length = (concatAll (keys jobs)).length + 1 := by
    simp [freshJobId, String.length_append, hx]
  omega

/-- C3: scheduled-job creation rejects — creating nothing — when the
requested time is not strictly in the future, when the batch is empty, or
when the channel set is empty; otherwise it generates a fresh id unused
by any stored job, persists the record through the config store, and
returns the id. -/
theorem create_spec (now at_time : Nat) (batch : List Msg)
    (channels : List String) (admin_id : String) (jobs : JobMap) :
    ((at_time ≤ now ∨ batch = [] ∨ channels = []) →
      create now batch channels at_time admin_id jobs = (none, jobs)) ∧
    (now < at_time → batch ≠ [] → channels ≠ [] →
      create now batch channels at_time admin_id jobs =
        (some (freshJobId jobs),
          jobs ++ [(freshJobId jobs,
            ⟨isoOfEpoch at_time, batch, channels, admin_id⟩)]) ∧
      freshJobId jobs ∉ keys jobs) := by
  constructor
  · intro h; simp [create, h]
  · intro h1 h2 h3
    have hfresh := freshJobId_not_mem jobs
    have hcond : ¬(at_time ≤ now ∨ batch = [] ∨ channels = []) := by
      push_neg
      exact ⟨by omega, h2, h3⟩
    refine ⟨?_, hfresh⟩
    simp only [create, hcond, if_neg, if_false, add_scheduled_job, hfresh]

theorem create_spec_witness :
    create 0 [Msg.text "hello"] ["-1001111111111"] 63839786400 "1" [] =
      (some (freshJobId []),
        [(freshJobId [],
          ⟨isoOfEpoch 63839786400, [Msg.text "hello"], ["-1001111111111"], "1"⟩)]) ∧
    create 0 [] ["-1001111111111"] 63839786400 "1" [] = (none, []) :=
  ⟨(create_spec 0 63839786400 [Msg.text "hello"] ["-1001111111111"] "1" []).2
      (by omega) (by simp) (by simp) |>.1,
   (create_spec 0 63839786400 [] ["-1001111111111"] "1" []).1 (by simp)⟩

/-! ### Scheduler-tick lemmas -/

theorem remove_eq_filter (jobs : JobMap) (id : String) :
    (remove_scheduled_job jobs id).2 = jobs.filter (fun p => p.1 ≠ id) := by
  unfold remove_scheduled_job
  by_cases h : id ∈ keys jobs
  · simp [h]
  · rw [if_neg h]
    symm
    refine List.filter_eq_self.2 fun p hp => ?_
    have hne : p.1 ≠ id := fun he => h (he ▸ List.mem_map_of_mem Prod.fst hp)
    simpa using hne

theorem scanDue_ok_of_parse (now : Nat) :
    ∀ jobs : JobMap,
      (∀ p ∈ jobs, (fromisoformat p.2.schedule_time).isSome = true) →
      scanDue now jobs = .ok (jobs.filter (isDue now))
  | [], _ => rfl
  | (id, j) :: rest, h => by
    have hj := h (id, j) (List.mem_cons_self _ _)
    obtain ⟨t, ht⟩ := Option.isSome_iff_exists.1 hj
    have ih := scanDue_ok_of_parse now rest
      (fun p hp => h p (List.mem_cons_of_mem _ hp))
    have hd : isDue now (id, j) = decide (t ≤ now) := by simp [isDue, ht]
    simp only [scanDue, ht, ih, List.filter_cons, hd]
    by_cases hle : t ≤ now
    · simp [hle]
    · simp [hle]

theorem scanDue_error_of_first_invalid (now : Nat) :
    ∀ (pre post : JobMap) (id : String) (j : Job),
      (∀ p ∈ pre, (fromisoformat p.2.schedule_time).isSome = true) →
      fromisoformat j.schedule_time = none →
      scanDue now (pre ++ (id, j) :: post) = .error id
  | [], post, id, j, _, hbad => by simp [scanDue, hbad]
  | (id0, j0) :: pre, post, id, j, hpre, hbad => by
    have h0 := hpre (id0, j0) (List.mem_cons_self _ _)
    obtain ⟨t0, ht0⟩ := Option.isSome_iff_exists.1 h0
    have ih := scanDue_error_of_first_invalid now pre post id j
      (fun p hp => hpre p (List.mem_cons_of_mem _ hp)) hbad
    simp [scanDue, ht0, ih]

theorem scanDue_ok_mem (now : Nat) :
    ∀ jobs due : JobMap, scanDue now jobs = .ok due →
      ∀ p ∈ due, p ∈ jobs ∧
        ∃ t, fromisoformat p.2.schedule_time = some t ∧ t ≤ now
  | [], due, h, p, hp => by
    simp only [scanDue, Except.ok.injEq] at h
    subst h
    cases hp
  | (id, j) :: rest, due, h, p, hp => by
    rcases hparse : fromisoformat j.schedule_time with _ | t
    · rw [scanDue, hparse] at h
      cases h
    · rw [scanDue, hparse] at h
      rcases hrest : scanDue now rest with e | due'
      · rw [hrest] at h; cases h
      · rw [hrest] at h
        simp only [Except.ok.injEq] at h
        subst h
        by_cases hle : t ≤ now
        · rw [if_pos hle] at hp
          rcases List.mem_cons.1 hp with rfl | hp'
          · exact ⟨List.mem_cons_self _ _, t, hparse, hle⟩
          · have := scanDue_ok_mem now rest due' hrest p hp'
            exact ⟨List.mem_cons_of_mem _ this.1, this.2⟩
        · rw [if_neg hle] at hp
          have := scanDue_ok_mem now rest due' hrest p hp
          exact ⟨List.mem_cons_of_mem _ this.1, this.2⟩

theorem execLoop_executed (oracle : SendOracle) (s : Settings) :
    ∀ (due jobs : JobMap) (ctr : Nat),
      (execLoop oracle s due jobs ctr).2.1 = due.map Prod.fst
  | [], _, _ => rfl
  | (id, j) :: due, jobs, ctr => by
    simp [execLoop, execLoop_executed oracle s due _ _]

theorem execLoop_jobs (oracle : SendOracle) (s : Settings) :
    ∀ (due jobs : JobMap) (ctr : Nat),
      (execLoop oracle s due jobs ctr).1 =
        jobs.filter (fun p => !((due.map Prod.fst).contains p.1))
  | [], jobs, ctr => by
    simp only [execLoop, List.map_nil]
    symm
    refine List.filter_eq_self.2 fun p _ => ?_
    simp
  | (id, j) :: due, jobs, ctr => by
    have ih := execLoop_jobs oracle s due
      (jobs.filter (fun p => decide (p.1 ≠ id)))
      (execute_scheduled_job oracle s j ctr).2
    simp only [execLoop, remove_eq_filter, ih, List.filter_filter]
    refine List.filter_congr fun p _ => ?_
    by_cases he : p.1 = id
    · simp [he]
    · simp [he]

theorem tick_executed_mem_keys (oracle : SendOracle) (s : Settings)
    (now : Nat) (jobs : JobMap) (ctr : Nat) (x : String)
    (hx : x ∈ (run_scheduled_jobs oracle s now jobs ctr).executed) :
    x ∈ keys jobs := by
  rcases hscan : scanDue now jobs with e | due
  · simp [run_scheduled_jobs, hscan] at hx
  · simp only [run_scheduled_jobs, hscan, execLoop_executed] at hx
    obtain ⟨p, hp, rfl⟩ := List.mem_map.1 hx
    exact List.mem_map_of_mem Prod.fst (scanDue_ok_mem now jobs due hscan p hp).1

theorem tick_executed_due (oracle : SendOracle) (s : Settings)
    (now : Nat) (jobs : JobMap) (ctr : Nat) (x : String)
    (hx : x ∈ (run_scheduled_jobs oracle s now jobs ctr).executed) :
    ∃ jx tx, (x, jx) ∈ jobs ∧
      fromisoformat jx.schedule_time = some tx ∧ tx ≤ now := by
  rcases hscan : scanDue now jobs with e | due
  · simp [run_scheduled_jobs, hscan] at hx
  · simp only [run_scheduled_jobs, hscan, execLoop_executed] at hx
    obtain ⟨p, hp, rfl⟩ := List.mem_map.1 hx
    obtain ⟨hmem, t, hparse, hle⟩ := scanDue_ok_mem now jobs due hscan p hp
    exact ⟨p.2, t, hmem, hparse, hle⟩

theorem cleanup_mem_of_mem (now : Nat) (jobs : JobMap) (p : String × Job)
    (hp : p ∈ (cleanup_expired_jobs now jobs).1) : p ∈ jobs :=
  (List.mem_filter.1 hp).1

/-! ### Due jobs executed once and deleted (C2) -/

/-- C2 counterexample: with a malformed job stored ahead of a due job,
a single tick at a time past the due job's schedule time executes
nothing — it removes the malformed entry and then aborts (the dict was
mutated mid-iteration), leaving the due job unexecuted and still
stored — so "a single tick(now) executes the job and deletes its record"
fails as stated. -/
theorem tick_counterexample :
    fromisoformat "2024-01-02T10:00:00" = some 63839786400 ∧
    (run_scheduled_jobs (fun _ => true) ⟨0, 3, ""⟩ 63839786400
      [("bad", ⟨"garbage", [Msg.text "x"], ["-1001111111111"], "1"⟩),
       ("good", ⟨"2024-01-02T10:00:00", [Msg.text "hello"],
          ["-1001111111111"], "1"⟩)] 0).executed = [] ∧
    ("good", ⟨"2024-01-02T10:00:00", [Msg.text "hello"],
        ["-1001111111111"], "1"⟩) ∈
      (run_scheduled_jobs (fun _ => true) ⟨0, 3, ""⟩ 63839786400
        [("bad", ⟨"garbage", [Msg.text "x"], ["-1001111111111"], "1"⟩),
         ("good", ⟨"2024-01-02T10:00:00", [Msg.text "hello"],
            ["-1001111111111"], "1"⟩)] 0).jobs := by
  decide

/-- C2 amended: provided every stored job's schedule time parses (a
malformed sibling entry aborts the tick after its own removal — see the
counterexample), a pending job whose schedule time is ≤ now is executed
exactly once by a single tick, its record is deleted regardless of the
per-send outcome, and an immediately following tick at the same `now` is
a no-op for that job. -/
theorem tick_executes_due_job (oracle : SendOracle) (s : Settings)
    (now t ctr : Nat) (jobs : JobMap) (id : String) (j : Job)
    (hnd : (keys jobs).Nodup)
    (hall : ∀ p ∈ jobs, (fromisoformat p.2.schedule_time).isSome = true)
    (hmem : (id, j) ∈ jobs)
    (ht : fromisoformat j.schedule_time = some t)
    (hdue : t ≤ now) :
    (run_scheduled_jobs oracle s now jobs ctr).executed.count id = 1 ∧
    id ∉ keys (run_scheduled_jobs oracle s now jobs ctr).jobs ∧
    id ∉ (run_scheduled_jobs oracle s now
        (run_scheduled_jobs oracle s now jobs ctr).jobs
        (run_scheduled_jobs oracle s now jobs ctr).ctr).executed := by
  have hok := scanDue_ok_of_parse now jobs hall
  have hdue_mem : (id, j) ∈ jobs.filter (isDue now) :=
    List.mem_filter.2 ⟨hmem, by simp [isDue, ht, hdue]⟩
  have hid_due : id ∈ (jobs.filter (isDue now)).map Prod.fst :=
    List.mem_map_of_mem Prod.fst hdue_mem
  have hexec : (run_scheduled_jobs oracle s now jobs ctr).executed =
      (jobs.filter (isDue now)).map Prod.fst := by
    simp [run_scheduled_jobs, hok, execLoop_executed]
  have hnodup : ((jobs.filter (isDue now)).map Prod.fst).Nodup := by
    have hsub : List.Sublist ((jobs.filter (isDue now)).map Prod.fst)
        (keys jobs) := (List.filter_sublist jobs).map Prod.fst
    exact hnd.sublist hsub
  have hcount : (run_scheduled_jobs oracle s now jobs ctr).executed.count id = 1 := by
    rw [hexec]
    exact List.count_eq_one_of_mem hnodup hid_due
  have hjob_res : (run_scheduled_jobs oracle s now jobs ctr).jobs =
      (cleanup_expired_jobs now (jobs.filter
        (fun p => !(((jobs.filter (isDue now)).map Prod.fst).contains p.1)))).1 := by
    simp [run_scheduled_jobs, hok, execLoop_jobs]
  have hnot_in : id ∉ keys (run_scheduled_jobs oracle s now jobs ctr).jobs := by
    rw [hjob_res]
    intro hk
    obtain ⟨p, hp, hpid⟩ := List.mem_map.1 hk
    have hp' := cleanup_mem_of_mem _ _ _ hp
    have hpred := (List.mem_filter.1 hp').2
    rw [hpid] at hpred
    simp only [Bool.not_eq_true', List.contains] at hpred
    rw [List.elem_eq_true_of_mem hid_due] at hpred
    simp at hpred
  refine ⟨hcount, hnot_in, fun h2 => ?_⟩
  exact hnot_in (tick_executed_mem_keys oracle s now _ _ id h2)

theorem tick_executes_due_job_witness :
    (run_scheduled_jobs (fun _ => true) ⟨0, 3, ""⟩ 63839786400
      [("j1", ⟨"2024-01-02T10:00:00", [Msg.text "hello"],
        ["-1001111111111"], "1"⟩)] 0).executed.count "j1" = 1 ∧
    "j1" ∉ keys (run_scheduled_jobs (fun _ => true) ⟨0, 3, ""⟩ 63839786400
      [("j1", ⟨"2024-01-02T10:00:00", [Msg.text "hello"],
        ["-1001111111111"], "1"⟩)] 0).jobs := by
  have h := tick_executes_due_job (fun _ => true) ⟨0, 3, ""⟩
    63839786400 63839786400 0
    [("j1", ⟨"2024-01-02T10:00:00", [Msg.text "hello"],
      ["-1001111111111"], "1"⟩)] "j1"
    ⟨"2024-01-02T10:00:00", [Msg.text "hello"], ["-1001111111111"], "1"⟩
    (by simp [keys]) (by decide) (by simp) (by decide) (by omega)
  exact ⟨h.1, h.2.1⟩

/-! ### Malformed jobs removed, never executed (C4) -/

/-- C4: a stored job whose schedule time is unparseable is removed by the
next tick without being executed and a log record attests the removal
(the tick removes the first such entry and aborts; here it is stated for
a malformed entry preceded only by parseable ones); a tick never executes
any job whose stored time does not parse (everything executed is a
parseable, due, stored job); and the expiry sweep on its own also removes
and logs every malformed entry. -/
theorem invalid_job_removed (oracle : SendOracle) (s : Settings)
    (now ctr : Nat) (pre post : JobMap) (id : String) (j : Job)
    (hpre : ∀ p ∈ pre, (fromisoformat p.2.schedule_time).isSome = true)
    (hbad : fromisoformat j.schedule_time = none) :
    id ∉ keys (run_scheduled_jobs oracle s now (pre ++ (id, j) :: post) ctr).jobs ∧
    (run_scheduled_jobs oracle s now (pre ++ (id, j) :: post) ctr).invalid_removed
      = [id] ∧
    (run_scheduled_jobs oracle s now (pre ++ (id, j) :: post) ctr).executed = [] ∧
    (∀ (jobs' : JobMap) (now' ctr' : Nat) (x : String),
      x ∈ (run_scheduled_jobs oracle s now' jobs' ctr').executed →
      ∃ jx tx, (x, jx) ∈ jobs' ∧
        fromisoformat jx.schedule_time = some tx ∧ tx ≤ now') ∧
    (∀ (jobs' : JobMap) (now' : Nat) (x : String) (jx : Job),
      (x, jx) ∈ jobs' → fromisoformat jx.schedule_time = none →
      x ∈ (cleanup_expired_jobs now' jobs').2 ∧
        x ∉ keys (cleanup_expired_jobs now' jobs').1) := by
  have hscan := scanDue_error_of_first_invalid now pre post id j hpre hbad
  refine ⟨?_, ?_, ?_, ?_, ?_⟩
  · have hrem : (run_scheduled_jobs oracle s now (pre ++ (id, j) :: post)
        ctr).jobs = (pre ++ (id, j) :: post).filter (fun p => p.1 ≠ id) := by
      simp [run_scheduled_jobs, hscan, remove_eq_filter]
    rw [hrem]
    intro hk
    obtain ⟨p, hp, hpid⟩ := List.mem_map.1 hk
    have hpred := (List.mem_filter.1 hp).2
    simp only [decide_eq_true_eq] at hpred
    exact hpred hpid
  · simp [run_scheduled_jobs, hscan]
  · simp [run_scheduled_jobs, hscan]
  · intro jobs' now' ctr' x hx
    exact tick_executed_due oracle s now' jobs' ctr' x hx
  · intro jobs' now' x jx hmem hbad'
    have hexp : x ∈ (cleanup_expired_jobs now' jobs').2 := by
      simp only [cleanup_expired_jobs]
      exact List.mem_filterMap.2 ⟨(x, jx), hmem, by simp [hbad']⟩
    refine ⟨hexp, fun hk => ?_⟩
    obtain ⟨p, hp, hpid⟩ := List.mem_map.1 hk
    have hpred := (List.mem_filter.1 hp).2
    rw [hpid] at hpred
    simp only [decide_eq_true_eq] at hpred
    exact hpred hexp

theorem invalid_job_removed_witness :
    "bad" ∉ keys (run_scheduled_jobs (fun _ => true) ⟨0, 3, ""⟩ 0
      [("bad", ⟨"garbage", [Msg.text "x"], ["-1001111111111"], "1"⟩)] 0).jobs ∧
    (run_scheduled_jobs (fun _ => true) ⟨0, 3, ""⟩ 0
      [("bad", ⟨"garbage", [Msg.text "x"], ["-1001111111111"], "1"⟩)]
        0).invalid_removed = ["bad"] ∧
    (run_scheduled_jobs (fun _ => true) ⟨0, 3, ""⟩ 0
      [("bad", ⟨"garbage", [Msg.text "x"], ["-1001111111111"], "1"⟩)]
        0).executed = [] := by
  have h := invalid_job_removed (fun _ => true) ⟨0, 3, ""⟩ 0 0 [] []
    "bad" ⟨"garbage", [Msg.text "x"], ["-1001111111111"], "1"⟩
    (by simp) (by decide)
  exact ⟨by simpa using h.1, by simpa using h.2.1, by simpa using h.2.2.1⟩

/-! ### Session cleared after immediate post (C10) -/

/-- C10: once an immediate post actually executes (non-empty batch and
non-empty channel selection), the operator's in-memory batch and selected
channel set are both reset to empty, whatever the per-send outcomes
were. -/
theorem execute_post_clears_session (oracle : SendOracle) (s : Settings)
    (ud : UserData) (ctr : Nat) (hb : ud.batch ≠ [])
    (hc : ud.selected_channels ≠ []) :
    (execute_post oracle s ud ctr).1 = ⟨[], []⟩ ∧
    ∃ d, (execute_post oracle s ud ctr).2 = some d := by
  have hcond : ¬(ud.batch = [] ∨ ud.selected_channels = []) := by tauto
  refine ⟨?_, executePostDispatch oracle s ud.selected_channels ud.batch ctr, ?_⟩ <;>
    simp [execute_post, hcond]

theorem execute_post_clears_session_witness :
    (execute_post (fun _ => false) ⟨1, 3, "f"⟩
        ⟨[Msg.text "hello"], ["-1001111111111"]⟩ 0).1 = ⟨[], []⟩ ∧
    ((execute_post (fun _ => false) ⟨1, 3, "f"⟩
        ⟨[Msg.text "hello"], ["-1001111111111"]⟩ 0).2.map
          Dispatch.successful_posts) = some 0 :=
  ⟨(execute_post_clears_session (fun _ => false) ⟨1, 3, "f"⟩
      ⟨[Msg.text "hello"], ["-1001111111111"]⟩ 0 (by simp) (by simp)).1,
   by rfl⟩

end ACMPro
